import Mathlib

/-!
Verification development for the Whop_Boardy member-directory service.

The repository consists of near-duplicate Express servers (src/server.js,
which concatenates two variants, and src/unnamed/part_000 .. part_002).
This file gives a shallow embedding of the tenant resolver, the webhook
dispatcher and the membership upsert engine of those variants, and proves
or refutes the frozen claims about them.

Conventions of the embedding:
  * JSON payloads are values of the inductive type JsonVal; a missing
    object property is represented by JsonVal.null (JavaScript undefined
    and null are conflated: both are falsy and both become SQL NULL).
  * Database tables are lists of row structures; the single-statement
    INSERT .. ON CONFLICT .. DO UPDATE primitive is modelled by sqlUpsert.
  * Timestamps are integers in milliseconds since the Unix epoch; the
    current time is passed in explicitly as a parameter named now.
  * Network effects (the Whop REST API fetches, HMAC computation, JSON
    parsing of a raw webhook body) are passed in as explicit function or
    Option parameters, so handlers stay pure functions of their inputs.
-/

/-- JSON-ish JavaScript values as they appear in webhook payloads. -/
inductive JsonVal where
  | null : JsonVal
  | bool : Bool → JsonVal
  | num : Int → JsonVal
  | str : String → JsonVal
  | arr : List JsonVal → JsonVal
  | obj : List (String × JsonVal) → JsonVal

/-- JavaScript truthiness (NaN is not modelled; numbers are integers). -/
def truthy : JsonVal → Bool
  | .null => false
  | .bool b => b
  | .num n => n ≠ 0
  | .str s => s ≠ ""
  | .arr _ => true
  | .obj _ => true

/-- Property access a.k (and optional chaining a?.k): JsonVal.null stands
for the undefined result on a missing key or a non-object receiver. -/
def jget : JsonVal → String → JsonVal
  | .obj fs, k => ((fs.find? (fun p => p.1 == k)).map (fun p => p.2)).getD .null
  | _, _ => .null

/-- The JavaScript a || b operator. -/
def jsOr (a b : JsonVal) : JsonVal := if truthy a then a else b

/-- A chain v1 || v2 || ... || null of fallbacks ending in null. -/
def firstTruthy : List JsonVal → JsonVal
  | [] => .null
  | v :: rest => if truthy v then v else firstTruthy rest

/-- SQL COALESCE(new, old) as produced by an ON CONFLICT DO UPDATE clause:
the freshly inserted parameter is NULL exactly when the JsonVal is null. -/
def jsCoalesce (new old : JsonVal) : JsonVal :=
  match new with
  | .null => old
  | v => v

/-- Strict equality v === "lit" of a JavaScript value against a string
literal, as in a switch case arm. -/
def jsEqStr (v : JsonVal) (lit : String) : Bool :=
  match v with
  | .str s => s == lit
  | _ => false

/-- Strict equality v === true. -/
def jsEqTrue (v : JsonVal) : Bool :=
  match v with
  | .bool b => b
  | _ => false

mutual

/-- Template-literal / String() coercion of a JavaScript value (arrays
stringify as the comma-joined coercions of their elements). -/
def jsTemplate : JsonVal → String
  | .str s => s
  | .num n => toString n
  | .bool b => cond b "true" "false"
  | .null => "null"
  | .obj _ => "[object Object]"
  | .arr xs => templateElems xs

def templateElems : List JsonVal → String
  | [] => ""
  | [v] => jsTemplate v
  | v :: rest => jsTemplate v ++ "," ++ templateElems rest

end

mutual

/-- JSON.stringify (string escaping is not modelled: the payloads under
study contain no characters needing escapes). -/
def jsonStringify : JsonVal → String
  | .null => "null"
  | .bool b => cond b "true" "false"
  | .num n => toString n
  | .str s => "\"" ++ s ++ "\""
  | .arr xs => "[" ++ stringifyElems xs ++ "]"
  | .obj fs => "\x7b" ++ stringifyFields fs ++ "\x7d"

def stringifyElems : List JsonVal → String
  | [] => ""
  | [v] => jsonStringify v
  | v :: rest => jsonStringify v ++ "," ++ stringifyElems rest

def stringifyFields : List (String × JsonVal) → String
  | [] => ""
  | [(k, v)] => "\"" ++ k ++ "\":" ++ jsonStringify v
  | (k, v) :: rest => "\"" ++ k ++ "\":" ++ jsonStringify v ++ "," ++ stringifyFields rest

end

/-- Conversion of a JavaScript value to the text handed to a VARCHAR/TEXT
SQL parameter by node-postgres (objects are serialized as JSON). -/
def jsToText : JsonVal → String
  | .str s => s
  | .num n => toString n
  | .bool b => cond b "true" "false"
  | .null => "null"
  | v => jsonStringify v

/-- Lookup in a plain-object field list (JavaScript objects have unique
keys; on lists with duplicates the first binding wins, like jget). -/
def lookupField (fs : List (String × JsonVal)) (k : String) : Option JsonVal :=
  ((fs.find? (fun p => p.1 == k)).map (fun p => p.2))

/-- Fields contributed by an object spread: objects spread their entries,
arrays and strings spread index keys, primitives contribute nothing. -/
def objSpreadFields : JsonVal → List (String × JsonVal)
  | .obj fs => fs
  | .arr xs => (xs.enum).map (fun p => (toString p.1, p.2))
  | .str s => (s.toList.enum).map (fun p => (toString p.1, JsonVal.str (String.mk [p.2])))
  | _ => []

/-- The SQL column value handed to a nullable VARCHAR/TEXT parameter:
JavaScript null/undefined become SQL NULL (none). -/
def toCol (v : JsonVal) : Option String :=
  match v with
  | .null => none
  | v => some (jsToText v)

/-- WHERE column = $param on a nullable text column: SQL NULL on either
side never compares equal. -/
def sqlEqCol (col : Option String) (param : JsonVal) : Bool :=
  match col, param with
  | _, .null => false
  | none, _ => false
  | some s, v => s == jsToText v

/-- The result of a spread merge left-then-right, as in the JavaScript
object literal with two spreads: keys of the left operand first (values
overridden by the right operand where present), then fresh right keys. -/
def mergeFields (a b : List (String × JsonVal)) : List (String × JsonVal) :=
  (a.map (fun p => (p.1, (lookupField b p.1).getD p.2))) ++
    b.filter (fun p => (lookupField a p.1).isNone)

/-- Assignment target[k] = v on a plain object. -/
def setField (fs : List (String × JsonVal)) (k : String) (v : JsonVal) :
    List (String × JsonVal) :=
  if (lookupField fs k).isSome then
    fs.map (fun p => if p.1 == k then (p.1, v) else p)
  else fs ++ [(k, v)]

/-- Number of own keys, as in Object.keys(v).length. -/
def objKeyCount : JsonVal → Nat
  | .obj fs => fs.length
  | .arr xs => xs.length
  | .str s => s.length
  | _ => 0

/-- Substring containment on character lists (String.prototype.includes). -/
def containsSub (p : List Char) : List Char → Bool
  | [] => p.isPrefixOf []
  | c :: rest => p.isPrefixOf (c :: rest) || containsSub p rest

/-- String.prototype.includes. -/
def containsStr (s pat : String) : Bool := containsSub pat.toList s.toList

/-- String.prototype.trim (whitespace per Char.isWhitespace). -/
def jsTrim (s : String) : String :=
  String.mk (((s.toList.dropWhile Char.isWhitespace).reverse.dropWhile
    Char.isWhitespace).reverse)

/-- Removal of the first occurrence of a pattern, as in the JavaScript
s.replace(pat, "") with a string pattern. -/
def removeFirst (p : List Char) : List Char → List Char
  | [] => []
  | c :: rest =>
    if p.isPrefixOf (c :: rest) then (c :: rest).drop p.length
    else c :: removeFirst p rest

/-- Split a character list on a separator character (for parsing the
t=...,v1=... signature header). -/
def charSplit (sep : Char) : List Char → List (List Char)
  | [] => [[]]
  | c :: rest =>
    let r := charSplit sep rest
    if c = sep then [] :: r
    else
      match r with
      | [] => [[c]]
      | h :: t => (c :: h) :: t

/-!
A small backtracking matcher covering exactly the regular expressions used
by the company-id extraction code. Patterns are transliterated into token
lists; character classes are the only quantified atoms appearing in the
source patterns. Matching is leftmost (the first start position at which
the whole token list matches) and greedy with backtracking, like the
JavaScript String.prototype.match with a non-global pattern.
-/

/-- The character classes occurring in the source patterns. -/
inductive CharCls where
  | notIn : List Char → CharCls
  | alnum : CharCls
  | alnumScore : CharCls

def clsMatches : CharCls → Char → Bool
  | .notIn cs, c => !(cs.contains c)
  | .alnum, c => c.isAlpha || c.isDigit
  | .alnumScore, c => c.isAlpha || c.isDigit || c = '_' || c = '-'

/-- Pattern tokens: a literal string, an optional single character (the s
of https?), a non-capturing greedy class-plus, a non-capturing greedy
class-star, and the single capturing group of the pattern, consisting of
an optional literal head (as in (biz_[a-zA-Z0-9]+)) and a class-plus. -/
inductive RTok where
  | lit : String → RTok
  | opt : Char → RTok
  | cls : CharCls → RTok
  | star : CharCls → RTok
  | grp : String → CharCls → RTok

/-- Length of the maximal run of class characters at the head. -/
def runLen (cc : CharCls) : List Char → Nat
  | [] => 0
  | c :: rest => if clsMatches cc c then runLen cc rest + 1 else 0

/-- Candidate consumption lengths for a greedy quantifier over a run of
maximal length m: longest first, with 0 allowed only for star. -/
def lensDesc (m : Nat) (allowZero : Bool) : List Nat :=
  ((List.range m).reverse.map (fun n => n + 1)) ++ (if allowZero then [0] else [])

def firstSome : List (Option α) → Option α
  | [] => none
  | some a :: _ => some a
  | none :: rest => firstSome rest

/-- Match a token list against a prefix of the input. Returns none on
failure, some none on a match in which the capturing group was not
reached, and some (some c) on a match capturing c. Greedy quantifiers
backtrack from the longest run, as in the JavaScript engine. -/
def matchToks : List RTok → List Char → Option (Option String)
  | [], _ => some none
  | .lit l :: rest, s =>
    if l.toList.isPrefixOf s then matchToks rest (s.drop l.length) else none
  | .opt c :: rest, s =>
    match s with
    | c' :: s' =>
      if c' = c then
        match matchToks rest s' with
        | some r => some r
        | none => matchToks rest s
      else matchToks rest s
    | [] => matchToks rest []
  | .cls cc :: rest, s =>
    firstSome ((lensDesc (runLen cc s) false).map (fun n => matchToks rest (s.drop n)))
  | .star cc :: rest, s =>
    firstSome ((lensDesc (runLen cc s) true).map (fun n => matchToks rest (s.drop n)))
  | .grp pre cc :: rest, s =>
    if pre.toList.isPrefixOf s then
      let s1 := s.drop pre.length
      firstSome ((lensDesc (runLen cc s1) false).map (fun n =>
        (matchToks rest (s1.drop n)).map (fun _ =>
          some (pre ++ String.mk (s1.take n)))))
    else none

/-- Leftmost search: try the match at every start position. A successful
match that did not reach the capturing group is collapsed to none, since
every caller immediately dereferences match[1]. -/
def searchToks (toks : List RTok) : List Char → Option String
  | [] =>
    match matchToks toks [] with
    | some cap => cap
    | none => none
  | c :: rest =>
    match matchToks toks (c :: rest) with
    | some cap => cap
    | none => searchToks toks rest

/-- A pattern: an anchoring flag (a leading ^ in the source regex) and the
token list. reFind returns match[1], or none when the pattern fails. -/
def reFind (p : Bool × List RTok) (s : String) : Option String :=
  if p.1 then
    match matchToks p.2 s.toList with
    | some cap => cap
    | none => none
  else searchToks p.2 s.toList

/-!
Tenant resolver of the second server.js variant (extractCompanyId,
extractCompanyFromWhopApps, extractCompanyFromReferer, server.js lines
716-849) and of the part_001 variant (lines 122-188).
-/

/-- An inbound Express request, with lowercased header names as Express
presents them, parsed query parameters, and the JSON-parsed body. -/
structure Request where
  headers : List (String × String)
  query : List (String × String)
  body : JsonVal

def getHeader (r : Request) (k : String) : Option String :=
  (r.headers.find? (fun p => p.1 == k)).map (fun p => p.2)

def getQuery (r : Request) (k : String) : Option String :=
  (r.query.find? (fun p => p.1 == k)).map (fun p => p.2)

def getReferer (r : Request) : Option String := getHeader r "referer"

/-- Whop internal app-domain pattern: a leading-anchored
https?://([a-zA-Z0-9]+).apps.whop.com. -/
def whopAppsPattern : Bool × List RTok :=
  (true, [.lit "http", .opt 's', .lit "://", .grp "" .alnum, .lit ".apps.whop.com"])

/-- extractCompanyFromWhopApps (server.js lines 783-805): bail out unless
the referer mentions whop, match the apps-subdomain pattern, and require
the captured company id to be longer than 3 characters. -/
def extractCompanyFromWhopApps : Option String → Option String
  | none => none
  | some referer =>
    if !(containsStr referer "whop") then none
    else
      match reFind whopAppsPattern referer with
      | some cap => if cap.length > 3 then some cap else none
      | none => none

/-- The ordered referer URL patterns of extractCompanyFromReferer
(server.js lines 813-838), transliterated one regex per entry. -/
def srvRefererPatterns : List (Bool × List RTok) :=
  [ (false, [.lit "/apps/", .grp "" (.notIn ['/', '?'])]),
    (false, [.lit "/", .grp "" (.notIn ['/']), .lit "/apps/", .cls (.notIn ['/', '?'])]),
    (false, [.lit "whop.com/", .grp "" (.notIn ['/']), .lit "/", .star (.notIn ['/']), .lit "app"]),
    (false, [.lit "/", .grp "biz_" (.notIn ['/', '?'])]),
    (false, [.lit "/company/", .grp "" (.notIn ['/', '?'])]),
    (false, [.lit "/business/", .grp "" (.notIn ['/', '?'])]),
    (false, [.lit "company_id=", .grp "" (.notIn ['&', '?'])]),
    (false, [.lit "business_id=", .grp "" (.notIn ['&', '?'])]),
    (false, [.lit "page_id=", .grp "" (.notIn ['&', '?'])]),
    (true, [.lit "http", .opt 's', .lit "://", .grp "" (.notIn ['.']), .lit ".whop.com"]),
    (false, [.lit "whop.com/", .grp "" (.notIn ['/']), .lit "/", .cls (.notIn ['/'])]),
    (false, [.lit "whop.com/", .grp "" (.notIn ['/', '?'])]),
    (false, [.lit "/", .grp "" (.notIn ['/']), .lit "/dashboard"]),
    (false, [.lit "/", .grp "" (.notIn ['/']), .lit "/members"]),
    (false, [.lit "/", .grp "" (.notIn ['/']), .lit "/apps"]) ]

/-- Loop body of extractCompanyFromReferer: return the first match[1]
that is not one of the placeholder segments www, app, apps. -/
def firstPatternHit : List (Bool × List RTok) → String → Option String
  | [], _ => none
  | p :: ps, referer =>
    match reFind p referer with
    | some m1 =>
      if m1 != "www" && m1 != "app" && m1 != "apps" then some m1
      else firstPatternHit ps referer
    | none => firstPatternHit ps referer

/-- extractCompanyFromReferer (server.js lines 807-849). -/
def extractCompanyFromReferer : Option String → Option String
  | none => none
  | some referer => firstPatternHit srvRefererPatterns referer

/-- A source entry of the extractCompanyId candidate array. Header and
query values are strings when present; body fields pass the loop filter
typeof source === 'string' only when the JSON value is a string. -/
def asStr : JsonVal → Option String
  | .str s => some s
  | _ => none

/-- The candidate array of extractCompanyId (server.js lines 728-756), in
source order: Whop headers, query parameters, webhook body fields, the
apps-subdomain referer extraction, and the general referer extraction. -/
def srvSources (r : Request) : List (Option String) :=
  [ getHeader r "x-page-id",
    getHeader r "x-whop-company-id",
    getHeader r "x-company-id",
    getHeader r "x-business-id",
    getQuery r "company",
    getQuery r "company_id",
    getQuery r "business_id",
    getQuery r "page_id",
    getQuery r "biz",
    asStr (jget r.body "page_id"),
    asStr (jget r.body "company_id"),
    asStr (jget r.body "business_id"),
    asStr (jget (jget r.body "data") "page_id"),
    asStr (jget (jget r.body "data") "company_id"),
    asStr (jget (jget r.body "data") "business_id"),
    asStr (jget (jget (jget r.body "data") "product") "company_id"),
    extractCompanyFromWhopApps (getReferer r),
    extractCompanyFromReferer (getReferer r) ]

/-- The selection loop of extractCompanyId: the first source that is a
string and non-empty after trimming wins, and the trimmed value is
returned. -/
def firstNonEmpty : List (Option String) → Option String
  | [] => none
  | none :: rest => firstNonEmpty rest
  | some s :: rest =>
    if jsTrim s ≠ "" then some (jsTrim s) else firstNonEmpty rest

/-- extractCompanyId of the second server.js variant (lines 718-780). -/
def extractCompanyId (r : Request) : Option String :=
  firstNonEmpty (srvSources r)

/-- The first four (header) sources of extractCompanyId, run through the
same selection loop; used to state the resolver-priority property. -/
def headerCandidate (r : Request) : Option String :=
  firstNonEmpty
    [ getHeader r "x-page-id",
      getHeader r "x-whop-company-id",
      getHeader r "x-company-id",
      getHeader r "x-business-id" ]

/-- The ordered referer URL patterns of the part_001 extractCompanyId
(part_001 lines 138-151). -/
def p1RefererPatterns : List (Bool × List RTok) :=
  [ (false, [.lit "whop.com/", .grp "" (.notIn ['/']), .lit "/", .cls (.notIn ['/']), .lit "/app/"]),
    (false, [.lit "whop.com/", .grp "" (.notIn ['/']), .lit "/"]),
    (false, [.grp "biz_" .alnum]),
    (false, [.lit "/", .grp "" .alnumScore, .lit "/tools"]),
    (false, [.lit "/", .grp "" .alnumScore, .lit "/integrations"]) ]

/-- Pattern loop of the part_001 resolver: the first match[1] is returned
with no placeholder filtering. -/
def p1FirstPatternHit : List (Bool × List RTok) → String → Option String
  | [], _ => none
  | p :: ps, referer =>
    match reFind p referer with
    | some m1 => some m1
    | none => p1FirstPatternHit ps referer

/-- Method 2 of the part_001 resolver reads headers.referer with a
fallback to headers.referrer via ||. -/
def p1Referer (r : Request) : Option String :=
  match getHeader r "referer" with
  | some s => if s = "" then getHeader r "referrer" else some s
  | none => getHeader r "referrer"

def optTruthy : Option String → Bool
  | some s => s ≠ ""
  | none => false

/-- The header scan of Method 3 (part_001 lines 176-184): the first
header whose value contains biz_ and matches (biz_[a-zA-Z0-9]+). -/
def p1BizScan : List (String × String) → Option String
  | [] => none
  | (_, v) :: rest =>
    if containsStr v "biz_" then
      match reFind (false, [.grp "biz_" .alnum]) v with
      | some m1 => some m1
      | none => p1BizScan rest
    else p1BizScan rest

/-- Method 3 of the part_001 resolver: x-company-id, then
x-whop-company-id, then the biz_ scan over every header. -/
def p1HeaderLookup (r : Request) : Option String :=
  if optTruthy (getHeader r "x-company-id") then getHeader r "x-company-id"
  else if optTruthy (getHeader r "x-whop-company-id") then getHeader r "x-whop-company-id"
  else p1BizScan r.headers

/-- Methods 2-3 of the part_001 resolver, reached when the query
parameter was absent or empty. -/
def p1AfterQuery (r : Request) : Option String :=
  match p1Referer r with
  | some referer =>
    if referer ≠ "" then
      match p1FirstPatternHit p1RefererPatterns referer with
      | some m1 => some m1
      | none => p1HeaderLookup r
    else p1HeaderLookup r
  | none => p1HeaderLookup r

/-- extractCompanyId of the part_001 variant (lines 123-188): the
company_id query parameter first, then the referer URL patterns, and only
then the explicit company headers. -/
def extractCompanyId_p1 (r : Request) : Option String :=
  match getQuery r "company_id" with
  | some q => if q ≠ "" then some q else p1AfterQuery r
  | none => p1AfterQuery r

/-!
Timestamp handling of the second server.js variant (handleMembershipValid
lines 1355-1363): joinedAt defaults to the current time; a present
created_at is run through parseInt, values above the year-2000-in-seconds
threshold are multiplied by 1000 and everything else is handed to the
Date constructor directly.
-/

def digitsVal (cs : List Char) : Option Nat :=
  let ds := cs.takeWhile Char.isDigit
  if ds = [] then none
  else some (ds.foldl (fun a c => a * 10 + (c.toNat - 48)) 0)

/-- parseInt on a string with no radix argument: leading whitespace, an
optional sign, then a maximal digit prefix; NaN (none) when no digit
follows (the hexadecimal 0x form is not modelled). -/
def parseIntStr (s : String) : Option Int :=
  let cs := s.toList.dropWhile Char.isWhitespace
  match cs with
  | '-' :: rest => (digitsVal rest).map (fun n => -(n : Int))
  | '+' :: rest => (digitsVal rest).map (fun n => (n : Int))
  | rest => (digitsVal rest).map (fun n => (n : Int))

/-- parseInt applied to an arbitrary value: numbers pass through, other
values are coerced to a string first. -/
def parseIntJs : JsonVal → Option Int
  | .num n => some n
  | v => parseIntStr (jsTemplate v)

/-- Civil date to days since the Unix epoch (the standard era-based
algorithm, written for truncating division; all intermediate values are
non-negative for the post-1970 dates that occur here). -/
def daysFromCivil (y m d : Int) : Int :=
  let y1 := if m ≤ 2 then y - 1 else y
  let era := (if 0 ≤ y1 then y1 else y1 - 399) / 400
  let yoe := y1 - era * 400
  let mp := (m + 9) % 12
  let doy := (153 * mp + 2) / 5 + d - 1
  let doe := yoe * 365 + yoe / 4 - yoe / 100 + doy
  era * 146097 + doe - 719468

/-- A millisecond value becomes a valid Date only inside the +-8.64e15
range JavaScript allows; outside it the Date is Invalid (none). -/
def jsDateFromMs (m : Int) : Option Int :=
  if m.natAbs ≤ 8640000000000000 then some m else none

def natOfDigits (cs : List Char) : Option Nat :=
  if cs ≠ [] && cs.all Char.isDigit then
    some (cs.foldl (fun a c => a * 10 + (c.toNat - 48)) 0)
  else none

def isoDateMs (cs : List Char) : Option Int :=
  match charSplit '-' cs with
  | [y, m, d] => do
    let yn ← natOfDigits y
    let mn ← natOfDigits m
    let dn ← natOfDigits d
    pure (86400000 * daysFromCivil (yn : Int) (mn : Int) (dn : Int))
  | _ => none

def isoSecondsMs (cs : List Char) : Option Int :=
  match charSplit '.' cs with
  | [s] => (natOfDigits s).map (fun n => 1000 * (n : Int))
  | [s, frac] => do
    let sn ← natOfDigits s
    let fn ← natOfDigits frac
    pure (1000 * (sn : Int) + (fn : Int))
  | _ => none

def isoTimeMs (cs : List Char) : Option Int :=
  match charSplit ':' cs with
  | [h, m] => do
    let hn ← natOfDigits h
    let mn ← natOfDigits m
    pure (3600000 * (hn : Int) + 60000 * (mn : Int))
  | [h, m, s] => do
    let hn ← natOfDigits h
    let mn ← natOfDigits m
    let sms ← isoSecondsMs s
    pure (3600000 * (hn : Int) + 60000 * (mn : Int) + sms)
  | _ => none

/-- Date parsing of a string, restricted to the ISO-8601 UTC forms this
repository can encounter: YYYY-MM-DD with an optional THH:MM[:SS[.mmm]]Z
time part (local-time forms without a trailing Z are not modelled and
parse as Invalid). Everything else is an Invalid Date (none). -/
def isoToMs (s : String) : Option Int :=
  match charSplit 'T' s.toList with
  | [d] => (isoDateMs d).bind jsDateFromMs
  | [d, t] =>
    if t.getLast? = some 'Z' then do
      let dm ← isoDateMs d
      let tm ← isoTimeMs (t.dropLast)
      jsDateFromMs (dm + tm)
    else none
  | _ => none

/-- The Date constructor on one argument: a number is milliseconds since
the epoch, a string goes through (ISO) date parsing, booleans and null
coerce to 1/0, and other objects give an Invalid Date. -/
def dateVal : JsonVal → Option Int
  | .num n => jsDateFromMs n
  | .str s => isoToMs s
  | .bool b => jsDateFromMs (cond b 1 0)
  | .null => jsDateFromMs 0
  | _ => none

/-- joined_at computation of the second server.js variant, lines
1355-1363: default to now; otherwise parseInt the raw value, treat
anything above 946684800 as epoch seconds (multiplied by 1000), and hand
everything else back to the Date constructor. -/
def parseJoinedAt (created : JsonVal) (now : Int) : Option Int :=
  if truthy created then
    match parseIntJs created with
    | some t =>
      if t > 946684800 then jsDateFromMs (t * 1000)
      else dateVal created
    | none => dateVal created
  else some now

/-!
State and membership handlers of the second server.js variant: the
whop_companies and whop_members tables, ensureCompanyExists,
generateCompanyName, handleMembershipValid, handleMembershipInvalid,
handleMembershipUpdate and the /webhook/whop dispatcher.
-/

/-- The INSERT .. ON CONFLICT .. DO UPDATE primitive on a list-backed
table: when some row matches the conflict predicate every matching row is
updated in place, otherwise the fresh row is appended. -/
def sqlUpsert (conflict : α → Bool) (upd : α → α) (fresh : α) (rows : List α) : List α :=
  if rows.any conflict then
    rows.map (fun row => if conflict row then upd row else row)
  else rows ++ [fresh]

/-- A row of whop_companies as touched by this variant. -/
structure CompanyRow where
  company_id : String
  company_name : String
  installation_source : String
  last_activity : Int
deriving DecidableEq

/-- A row of whop_members as touched by this variant. Identifier columns
hold the text node-postgres hands to SQL; nullable payload-derived
columns keep their JsonVal (null standing for SQL NULL); joined_at is
none when an Invalid Date reached the parameter. -/
structure MemberRow where
  user_id : String
  membership_id : JsonVal
  company_id : String
  email : JsonVal
  name : JsonVal
  username : JsonVal
  profile_picture_url : JsonVal
  custom_fields : JsonVal
  joined_at : Option Int
  status : String
  updated_at : Int

structure WState where
  companies : List CompanyRow
  members : List MemberRow

/-- generateCompanyName (server.js lines 950-969). -/
def isAlnumCh (c : Char) : Bool := c.isAlpha || c.isDigit

def isWordCh (c : Char) : Bool := isAlnumCh c || c = '_'

/-- replace(/[^a-zA-Z0-9]/g, ' '). -/
def replaceNonAlnum (s : String) : String :=
  String.mk (s.toList.map (fun c => if isAlnumCh c then c else ' '))

/-- replace(/[_-]/g, ' '). -/
def replaceScores (s : String) : String :=
  String.mk (s.toList.map (fun c => if c = '_' || c = '-' then ' ' else c))

/-- replace(/([a-z])([A-Z])/g, '$1 $2'): insert a space between a
lowercase letter and the uppercase letter that follows it. -/
def camelSplitGo (prev : Char) : List Char → List Char
  | [] => []
  | c :: rest =>
    if prev.isLower && c.isUpper then ' ' :: c :: camelSplitGo c rest
    else c :: camelSplitGo c rest

def camelSplit (s : String) : String :=
  match s.toList with
  | [] => ""
  | c :: rest => String.mk (c :: camelSplitGo c rest)

/-- replace(/\b\w/g, l => l.toUpperCase()): uppercase every word
character at a word boundary. -/
def capWordsGo (prevWord : Bool) : List Char → List Char
  | [] => []
  | c :: rest =>
    if isWordCh c && !prevWord then c.toUpper :: capWordsGo true rest
    else c :: capWordsGo (isWordCh c) rest

def capWords (s : String) : String := String.mk (capWordsGo false s.toList)

def generateCompanyName (companyId : String) : String :=
  if companyId.startsWith "biz_" then
    replaceNonAlnum (companyId.drop 4) ++ " Community"
  else if companyId.length > 10 && companyId.toList.all isAlnumCh && companyId.length ≥ 1 then
    String.mk ((companyId.take 8).toList.map Char.toUpper) ++ " Directory"
  else
    jsTrim (capWords (camelSplit (replaceScores companyId))) ++ " Directory"

/-- ensureCompanyExists (server.js lines 1502-1515): INSERT INTO
whop_companies ON CONFLICT (company_id) DO UPDATE SET last_activity. The
inserted row also starts with last_activity = now (column default). -/
def ensureCompanies (companyId : String) (now : Int) (cs : List CompanyRow) : List CompanyRow :=
  sqlUpsert (fun c => c.company_id == companyId)
    (fun c => { c with last_activity := now })
    { company_id := companyId, company_name := generateCompanyName companyId,
      installation_source := "webhook_first_contact", last_activity := now }
    cs

def ensureCompanyExists (companyId : String) (now : Int) (s : WState) : WState :=
  { s with companies := ensureCompanies companyId now s.companies }

/-- userId extraction shared by the three handlers: data.user_id || data.user. -/
def extractUserIdV (data : JsonVal) : JsonVal :=
  jsOr (jget data "user_id") (jget data "user")

/-- membershipId of handleMembershipValid: data.id || data.membership_id. -/
def extractMembershipIdV (data : JsonVal) : JsonVal :=
  jsOr (jget data "id") (jget data "membership_id")

/-- Email candidates of handleMembershipValid (lines 1372-1375). -/
def extractEmailV (data : JsonVal) : JsonVal :=
  firstTruthy [jget data "email", jget data "user_email", jget (jget data "user") "email"]

/-- The composed first/last-name fallback of the name chain. -/
def nameFromFirstLast (data : JsonVal) : JsonVal :=
  if truthy (jget data "first_name") && truthy (jget data "last_name") then
    .str (jsTemplate (jget data "first_name") ++ " " ++ jsTemplate (jget data "last_name"))
  else .null

/-- Name candidates of handleMembershipValid (lines 1377-1383). -/
def extractNameV (data : JsonVal) : JsonVal :=
  firstTruthy [jget data "name", jget data "display_name", jget data "user_name",
    jget (jget data "user") "name", jget (jget data "user") "display_name",
    nameFromFirstLast data]

/-- Username candidates of handleMembershipValid (lines 1385-1388). -/
def extractUsernameV (data : JsonVal) : JsonVal :=
  firstTruthy [jget data "username", jget data "user_username",
    jget (jget data "user") "username"]

/-- Custom-field extraction of handleMembershipValid (lines 1365-1370): a
single || chain, so only the first populated candidate location is used. -/
def extractCustomFieldsSrv (data : JsonVal) : JsonVal :=
  jsOr (jget data "custom_field_responses")
    (jsOr (jget data "waitlist_responses")
      (jsOr (jget data "custom_fields")
        (jsOr (jget data "responses")
          (jsOr (jget data "metadata") (.obj [])))))

/-- Conflict predicate of the whop_members upsert: ON CONFLICT
(user_id, company_id). -/
def keyMatch (uid companyId : String) (r : MemberRow) : Bool :=
  r.user_id == uid && r.company_id == companyId

/-- The freshly inserted whop_members row of handleMembershipValid. -/
def newMemberRow (companyId : String) (data : JsonVal) (now : Int) : MemberRow :=
  { user_id := jsToText (extractUserIdV data),
    membership_id := extractMembershipIdV data,
    company_id := companyId,
    email := extractEmailV data,
    name := extractNameV data,
    username := extractUsernameV data,
    profile_picture_url := .null,
    custom_fields := extractCustomFieldsSrv data,
    joined_at := parseJoinedAt (jget data "created_at") now,
    status := "active",
    updated_at := now }

/-- The DO UPDATE SET clause of handleMembershipValid: membership_id,
custom_fields and status are replaced outright, the optional profile
columns go through COALESCE(EXCLUDED.col, old col), updated_at is
refreshed and joined_at is left alone. -/
def updRowValid (data : JsonVal) (now : Int) (r : MemberRow) : MemberRow :=
  { r with
    membership_id := extractMembershipIdV data,
    email := jsCoalesce (extractEmailV data) r.email,
    name := jsCoalesce (extractNameV data) r.name,
    username := jsCoalesce (extractUsernameV data) r.username,
    custom_fields := extractCustomFieldsSrv data,
    status := "active",
    updated_at := now }

/-- handleMembershipValid of the second server.js variant (lines
1340-1423): bail out without a user id, ensure the company row, then run
the single-statement upsert keyed on (user_id, company_id). -/
def handleMembershipValid (companyId : String) (data : JsonVal) (now : Int) (s : WState) : WState :=
  if !(truthy (extractUserIdV data)) then s
  else
    let s1 := ensureCompanyExists companyId now s
    { s1 with
      members := sqlUpsert (keyMatch (jsToText (extractUserIdV data)) companyId)
        (updRowValid data now) (newMemberRow companyId data now) s1.members }

/-- handleMembershipInvalid of the second server.js variant (lines
1426-1451): UPDATE whop_members SET status = 'inactive', updated_at = now
WHERE user_id AND company_id match; every other column is untouched. -/
def handleMembershipInvalid (companyId : String) (data : JsonVal) (now : Int) (s : WState) : WState :=
  if !(truthy (extractUserIdV data)) then s
  else
    { s with members := s.members.map (fun r =>
        if keyMatch (jsToText (extractUserIdV data)) companyId r then
          { r with status := "inactive", updated_at := now }
        else r) }

/-- Custom-field chain of handleMembershipUpdate (lines 1464-1468): the
same || chain minus the metadata candidate. -/
def extractCustomFieldsUpd (data : JsonVal) : JsonVal :=
  jsOr (jget data "custom_field_responses")
    (jsOr (jget data "waitlist_responses")
      (jsOr (jget data "custom_fields")
        (jsOr (jget data "responses") (.obj []))))

/-- handleMembershipUpdate of the second server.js variant (lines
1454-1499): a targeted UPDATE with per-column COALESCE; when it matches
no row the event is re-processed through handleMembershipValid. -/
def handleMembershipUpdate (companyId : String) (data : JsonVal) (now : Int) (s : WState) : WState :=
  if !(truthy (extractUserIdV data)) then s
  else
    let uid := jsToText (extractUserIdV data)
    let cf := extractCustomFieldsUpd data
    if s.members.any (keyMatch uid companyId) then
      { s with members := s.members.map (fun r =>
          if keyMatch uid companyId r then
            { r with
              email := jsCoalesce (firstTruthy [jget data "email"]) r.email,
              name := jsCoalesce (firstTruthy [jget data "name", jget data "display_name"]) r.name,
              username := jsCoalesce (firstTruthy [jget data "username"]) r.username,
              custom_fields := if objKeyCount cf > 0 then cf else r.custom_fields,
              updated_at := now }
          else r) }
    else handleMembershipValid companyId data now s

/-- Recognized became-valid event-kind synonyms of the dispatcher. -/
def isValidEvt (e : JsonVal) : Bool :=
  jsEqStr e "membership_went_valid" || jsEqStr e "membership.went_valid" ||
  jsEqStr e "membership_created" || jsEqStr e "membership.created" ||
  jsEqStr e "user_joined" || jsEqStr e "user.joined"

/-- Recognized became-invalid event-kind synonyms. -/
def isInvalidEvt (e : JsonVal) : Bool :=
  jsEqStr e "membership_went_invalid" || jsEqStr e "membership.went_invalid" ||
  jsEqStr e "membership_cancelled" || jsEqStr e "membership.cancelled" ||
  jsEqStr e "user_left" || jsEqStr e "user.left"

/-- Recognized updated event-kind synonyms. -/
def isUpdateEvt (e : JsonVal) : Bool :=
  jsEqStr e "membership_updated" || jsEqStr e "membership.updated" ||
  jsEqStr e "user_updated" || jsEqStr e "user.updated"

/-- eventType of the dispatcher: req.body.event_type || req.body.action. -/
def wEventType (r : Request) : JsonVal :=
  jsOr (jget r.body "event_type") (jget r.body "action")

/-- data of the dispatcher: req.body.data || req.body. -/
def wData (r : Request) : JsonVal :=
  jsOr (jget r.body "data") r.body

/-- Company-id resolution of the dispatcher (lines 1263-1274):
extractCompanyId over the request first, then a fallback chain over the
webhook data object. -/
def wCompanyVal (r : Request) : JsonVal :=
  match extractCompanyId r with
  | some c => .str c
  | none =>
    firstTruthy [jget (wData r) "page_id", jget (wData r) "company_id",
      jget (wData r) "business_id", jget (jget (wData r) "data") "page_id",
      jget (jget (wData r) "data") "company_id"]

inductive WResp where
  | ok : JsonVal → String → WResp
  | badRequest : String → WResp

/-- The POST /webhook/whop dispatcher of the second server.js variant
(lines 1239-1337): payload validation, tenant resolution with a 400 on
failure, ensureCompanyExists, then the event-kind switch whose default
arm still processes payloads with status completed and valid === true as
membership validations. -/
def webhookWhop (r : Request) (now : Int) (s : WState) : WResp × WState :=
  let eventType := wEventType r
  let data := wData r
  if !(truthy eventType) then
    (.badRequest "Invalid webhook payload - missing event_type or action", s)
  else if !(truthy data) then
    (.badRequest "Invalid webhook payload - missing data", s)
  else if !(truthy (wCompanyVal r)) then
    (.badRequest "No company ID found in webhook payload", s)
  else
    let companyId := jsToText (wCompanyVal r)
    let s1 := ensureCompanyExists companyId now s
    let s2 :=
      if isValidEvt eventType then handleMembershipValid companyId data now s1
      else if isInvalidEvt eventType then handleMembershipInvalid companyId data now s1
      else if isUpdateEvt eventType then handleMembershipUpdate companyId data now s1
      else if jsEqStr (jget data "status") "completed" && jsEqTrue (jget data "valid") then
        handleMembershipValid companyId data now s1
      else s1
    (.ok eventType companyId, s2)

/-!
The part_000 variant: custom-field extraction (lines 193-210), the
membership handlers (lines 179-268) and the raw-body webhook route with
HMAC signature verification (lines 87-176).
-/

/-- Custom-field extraction of the part_000 handleMembershipValid: an
if/else-if chain picks the first populated of custom_fields,
custom_field_responses and metadata, after which form_responses and
checkout_custom_fields are spread-merged on top when populated. -/
def extractCustomFieldsP0 (data : JsonVal) : JsonVal :=
  let base :=
    if truthy (jget data "custom_fields") then jget data "custom_fields"
    else if truthy (jget data "custom_field_responses") then jget data "custom_field_responses"
    else if truthy (jget data "metadata") then jget data "metadata"
    else .obj []
  let b1 :=
    if truthy (jget data "form_responses") then
      .obj (mergeFields (objSpreadFields base) (objSpreadFields (jget data "form_responses")))
    else base
  if truthy (jget data "checkout_custom_fields") then
    .obj (mergeFields (objSpreadFields b1) (objSpreadFields (jget data "checkout_custom_fields")))
  else b1

/-- A row of the part_000 whop_members table; membership_id is the UNIQUE
conflict key and is guarded truthy before the write. -/
structure P0Row where
  company_id : String
  user_id : String
  membership_id : String
  email : JsonVal
  username : JsonVal
  name : JsonVal
  profile_picture_url : JsonVal
  custom_fields : JsonVal
  status : String
  joined_at : Int
  updated_at : Int

/-- handleMembershipValid of part_000 (lines 179-252): requires userId,
membershipId and companyId, then upserts on membership_id with a full
replace of every profile column (no COALESCE in this variant). -/
def p0HandleMembershipValid (data : JsonVal) (now : Int) (rows : List P0Row) : List P0Row :=
  let user := jget data "user"
  let userId := jsOr (jget user "id") (jget data "user_id")
  let membershipId := jget data "id"
  let companyId := jsOr (jget (jget data "product") "business_id")
    (jsOr (jget data "page_id") (jget data "company_id"))
  if !(truthy userId && truthy membershipId && truthy companyId) then rows
  else
    let cf := extractCustomFieldsP0 data
    let fresh : P0Row :=
      { company_id := jsToText companyId,
        user_id := jsToText userId,
        membership_id := jsToText membershipId,
        email := firstTruthy [jget user "email"],
        username := firstTruthy [jget user "username"],
        name := firstTruthy [jget user "name", jget user "display_name"],
        profile_picture_url := firstTruthy [jget user "profile_pic_url", jget user "profile_picture_url"],
        custom_fields := cf, status := "active", joined_at := now, updated_at := now }
    sqlUpsert (fun r => r.membership_id == jsToText membershipId)
      (fun r => { r with
        email := fresh.email, username := fresh.username,
        name := fresh.name, profile_picture_url := fresh.profile_picture_url,
        custom_fields := cf, status := "active", updated_at := now })
      fresh rows

/-- handleMembershipInvalid of part_000 (lines 255-268): UPDATE status
and updated_at by membership_id (a SQL NULL parameter matches no row). -/
def p0HandleMembershipInvalid (data : JsonVal) (now : Int) (rows : List P0Row) : List P0Row :=
  match jget data "id" with
  | .null => rows
  | mid => rows.map (fun r =>
      if r.membership_id == jsToText mid then
        { r with status := "inactive", updated_at := now }
      else r)

/-- The raw-body webhook request of part_000: the x-whop-signature header
and the unparsed body bytes. -/
structure RawRequest where
  sigHeader : Option String
  rawBody : String

inductive P0Out where
  | unauthorized : String → P0Out
  | badJson : P0Out
  | ok : P0Out
deriving DecidableEq

/-- Value of one hexadecimal digit; hex decoding is case-insensitive. -/
def hexDigitVal (c : Char) : Option Nat :=
  if c.isDigit then some (c.toNat - 48)
  else if 'a' ≤ c && c ≤ 'f' then some (c.toNat - 87)
  else if 'A' ≤ c && c ≤ 'F' then some (c.toNat - 55)
  else none

/-- Buffer.from(s, 'hex'): decode complete pairs of hex digits into
bytes from the left, case-insensitively, stopping at the first invalid
digit or at an odd trailing digit. -/
def hexDecode : List Char → List Nat
  | c1 :: c2 :: rest =>
    match hexDigitVal c1, hexDigitVal c2 with
    | some hi, some lo => (16 * hi + lo) :: hexDecode rest
    | _, _ => []
  | _ => []

/-- parts.find(p => p.startsWith(pre)) over the comma-split header. -/
def findPart (parts : List (List Char)) (pre : String) : Option (List Char) :=
  parts.find? (fun p => pre.toList.isPrefixOf p)

/-- The part of the part_000 webhook route after signature verification:
JSON.parse of the raw body (the parser is a model parameter; it is only
reached after a successful or skipped verification), then the action
switch. The returned Bool records that parsing was reached. -/
def p0Process (parse : String → Option JsonVal) (r : RawRequest) (now : Int)
    (rows : List P0Row) : P0Out × List P0Row × Bool :=
  match parse r.rawBody with
  | none => (.badJson, rows, true)
  | some jsonBody =>
    let action := jget jsonBody "action"
    let data := jget jsonBody "data"
    let rows2 :=
      if jsEqStr action "membership.went_valid" || jsEqStr action "app_membership.went_valid" then
        p0HandleMembershipValid data now rows
      else if jsEqStr action "membership.went_invalid" || jsEqStr action "app_membership.went_invalid" then
        p0HandleMembershipInvalid data now rows
      else rows
    (.ok, rows2, true)

/-- The POST /webhook/whop route of part_000 (lines 87-176). When
WHOP_WEBHOOK_SECRET is configured the x-whop-signature header is parsed
as t=timestamp,v1=hex; both the v1 value and the expected HMAC-SHA256 of
timestamp.rawBody (the hmac function is a model parameter returning the
lowercase hex digest) are hex-decoded into byte buffers exactly as
Buffer.from(s, 'hex') does - case-insensitively - and the route answers
401 when the buffer lengths differ or crypto.timingSafeEqual finds the
bytes unequal (timingSafeEqual on equal-length buffers is byte-list
equality). A missing header, a malformed header or a byte mismatch is
rejected before the body is ever parsed. -/
def p0Webhook (secret : Option String) (hmac : String → String → String)
    (parse : String → Option JsonVal) (r : RawRequest) (now : Int)
    (rows : List P0Row) : P0Out × List P0Row × Bool :=
  match secret with
  | some sec =>
    match r.sigHeader with
    | none => (.unauthorized "Missing signature or payload", rows, false)
    | some sh =>
      let parts := charSplit ',' sh.toList
      match findPart parts "t=", findPart parts "v1=" with
      | some tPart, some vPart =>
        let timestamp := String.mk (tPart.drop 2)
        let signature := String.mk (vPart.drop 3)
        let signedPayload := timestamp ++ "." ++ r.rawBody
        let expected := hmac sec signedPayload
        let signatureBuffer := hexDecode signature.toList
        let expectedBuffer := hexDecode expected.toList
        if signatureBuffer.length ≠ expectedBuffer.length ||
            signatureBuffer ≠ expectedBuffer then
          (.unauthorized "Invalid signature", rows, false)
        else p0Process parse r now rows
      | _, _ => (.unauthorized "Invalid signature header format", rows, false)
  | none => p0Process parse r now rows

/-!
The first server.js variant (lines 1-506): handleAppMembershipValid,
which cannot write a member without the membership-detail fetch, because
the company id only exists in that API response.
-/

/-- Custom-field collection of handleAppMembershipValid (lines 225-232):
membershipData.custom_field_responses must be an array; entries with
truthy question and answer are assigned into the object one by one. -/
def collectCustomFieldResponses : JsonVal → List (String × JsonVal)
  | .arr items => items.foldl (fun acc f =>
      if truthy (jget f "question") && truthy (jget f "answer") then
        setField acc (jsTemplate (jget f "question")) (jget f "answer")
      else acc) []
  | _ => []

/-- A row of the first-variant members table (conflict key
whop_membership_id). -/
structure AppMember where
  whop_company_id : String
  whop_user_id : String
  whop_membership_id : String
  email : JsonVal
  username : JsonVal
  name : JsonVal
  profile_picture_url : JsonVal
  waitlist_responses : List (String × JsonVal)
  membership_data : JsonVal
  status : String
  updated_at : Int

structure AppState where
  installations : List String
  members : List AppMember

/-- ensureInstallationExists (lines 286-306): register the company id on
first contact. -/
def ensureInstallationExists (companyId : String) (s : AppState) : AppState :=
  if s.installations.contains companyId then s
  else { s with installations := s.installations ++ [companyId] }

/-- handleAppMembershipValid of the first server.js variant (lines
184-283). The two REST fetches are model parameters: membershipData is
the membership-detail response (none on a non-2xx or network failure)
and userData the user-detail response. A missing API key or a failed
membership fetch aborts before any write, because company_buyer_id only
exists in the fetch response. -/
def handleAppMembershipValid (eventData : JsonVal) (apiKeySet : Bool)
    (membershipData : Option JsonVal) (userData : Option JsonVal)
    (now : Int) (s : AppState) : AppState :=
  let userId := jsOr (jget eventData "user_id") (jget (jget eventData "user") "id")
  let membershipId := jget eventData "id"
  if !(truthy userId && truthy membershipId) then s
  else if !apiKeySet then s
  else
    match membershipData with
    | none => s
    | some md =>
      let companyId := jget md "company_buyer_id"
      if !(truthy companyId) then s
      else
        let s1 := ensureInstallationExists (jsToText companyId) s
        let waitlist := collectCustomFieldResponses (jget md "custom_field_responses")
        let ud := userData.getD .null
        let fresh : AppMember :=
          { whop_company_id := jsToText companyId,
            whop_user_id := jsToText userId,
            whop_membership_id := jsToText membershipId,
            email := firstTruthy [jget ud "email"],
            username := firstTruthy [jget ud "username"],
            name := firstTruthy [jget ud "name", jget ud "display_name"],
            profile_picture_url := firstTruthy [jget ud "profile_picture_url"],
            waitlist_responses := waitlist, membership_data := md,
            status := "active", updated_at := now }
        let upd := fun (r : AppMember) => { r with
          email := fresh.email, username := fresh.username,
          name := fresh.name, profile_picture_url := fresh.profile_picture_url,
          waitlist_responses := waitlist, membership_data := md,
          status := "active", updated_at := now }
        let conflict := fun (r : AppMember) => r.whop_membership_id == jsToText membershipId
        { s1 with members := sqlUpsert conflict upd fresh s1.members }

/-!
The part_002 variant: groups/waitlist_responses/members tables, the
enrichment-tolerant handleMembershipValid (lines 44-106), and the webhook
route (lines 177-234) whose signature verification runs only when both a
secret and a signature header are present, after the company id has
already been read from the parsed body.
-/

structure P2Group where
  whop_company_id : String
  webhook_secret : Option String

structure P2WaitRow where
  rowid : Nat
  whop_company_id : String
  user_email : Option String
  user_id : Option String
  responses : JsonVal
  status : String
  submitted_at : Int

structure P2Member where
  whop_company_id : String
  whop_user_id : String
  email : JsonVal
  name : JsonVal
  waitlist_responses : JsonVal
  membership_data : JsonVal
  status : String
  joined_at : Int

structure P2State where
  groups : List P2Group
  waitlist : List P2WaitRow
  members : List P2Member

/-- SELECT * FROM waitlist_responses WHERE whop_company_id = $1 AND
(user_id = $2 OR user_email = $3) ORDER BY submitted_at DESC LIMIT 1. -/
def selectLatestWaitlist (rows : List P2WaitRow) (companyId : String)
    (userId userEmail : JsonVal) : Option P2WaitRow :=
  (rows.filter (fun r => r.whop_company_id == companyId &&
      (sqlEqCol r.user_id userId || sqlEqCol r.user_email userEmail))).foldl
    (fun best r =>
      match best with
      | none => some r
      | some b => if r.submitted_at > b.submitted_at then some r else some b)
    none

/-- Test for the SQL NULL that the whop_user_id NOT NULL constraint
rejects (JavaScript null/undefined). -/
def isNullJ : JsonVal → Bool
  | .null => true
  | _ => false

/-- handleMembershipValid of part_002 (lines 44-106). membershipData is
the membership-detail fetch result (none on any non-2xx or network
failure). The custom-field responses of the fetch are spread-merged; when
they are empty the most recent locally stored waitlist row is used as a
fallback; the member upsert happens in every case, with the whop_user_id
NOT NULL constraint rejecting only a null user id. The matched waitlist
row is then marked approved. -/
def p2HandleMembershipValid (data : JsonVal) (companyId : String)
    (membershipData : Option JsonVal) (now : Int) (s : P2State) : P2State :=
  let userId := jsOr (jget data "user_id") (jget (jget data "user") "id")
  let userEmail := jget (jget data "user") "email"
  let userName := jsOr (jget (jget data "user") "username") (jget (jget data "user") "name")
  let fromApi : JsonVal :=
    match membershipData with
    | some md =>
      let cf := jsOr (jget md "custom_fields_responses") (.obj [])
      let cf2 := jsOr (jget md "custom_fields_responses_v2") (.obj [])
      .obj (mergeFields (objSpreadFields cf) (objSpreadFields cf2))
    | none => .obj []
  let localRow := selectLatestWaitlist s.waitlist companyId userId userEmail
  let waitlistResponses :=
    if objKeyCount fromApi = 0 then
      match localRow with
      | some w => jsOr w.responses (.obj [])
      | none => fromApi
    else fromApi
  if isNullJ userId then s
  else
    let uid := jsToText userId
    let fresh : P2Member :=
      { whop_company_id := companyId, whop_user_id := uid,
        email := userEmail, name := userName,
        waitlist_responses := waitlistResponses, membership_data := data,
        status := "active", joined_at := now }
    let upd := fun (m : P2Member) => { m with
      email := userEmail, name := userName,
      waitlist_responses := waitlistResponses, membership_data := data,
      status := "active", joined_at := now }
    let conflict := fun (m : P2Member) => m.whop_company_id == companyId && m.whop_user_id == uid
    let s1 := { s with members := sqlUpsert conflict upd fresh s.members }
    match localRow with
    | some w =>
      { s1 with waitlist := s1.waitlist.map (fun r =>
          if r.rowid == w.rowid then { r with status := "approved" } else r) }
    | none => s1

/-- handleMembershipInvalid of part_002 (lines 237-250): UPDATE members
SET status = 'inactive' by (company, user); no other column is touched
and this variant has no updated_at column. -/
def p2HandleMembershipInvalid (data : JsonVal) (companyId : String) (s : P2State) : P2State :=
  let userId := jsOr (jget data "user_id") (jget (jget data "user") "id")
  { s with members := s.members.map (fun m =>
      if m.whop_company_id == companyId && sqlEqCol (some m.whop_user_id) userId then
        { m with status := "inactive" }
      else m) }

/-- handleWaitlistSubmission of part_002 (lines 253-268). -/
def p2HandleWaitlistSubmission (data : JsonVal) (companyId : String) (now : Int)
    (s : P2State) : P2State :=
  let userId := jsOr (jget data "user_id") (jget (jget data "user") "id")
  let userEmail := jget (jget data "user") "email"
  let responses := jsOr (jget data "responses") (jsOr (jget data "answers") (.obj []))
  { s with waitlist := s.waitlist ++
      [{ rowid := s.waitlist.length, whop_company_id := companyId,
         user_email := toCol userEmail, user_id := toCol userId,
         responses := responses, status := "pending", submitted_at := now }] }

inductive P2Out where
  | badRequest : P2Out
  | notFound : P2Out
  | unauthorized : P2Out
  | serverError : P2Out
  | ok : P2Out
deriving DecidableEq

/-- The POST /webhook/whop route of part_002 (lines 177-234). The body
arrives already parsed by express.json(); the company id is read from it
and the company webhook secret looked up BEFORE any signature handling.
Verification runs only when the secret is set AND the signature header is
present; the header has its sha256= prefix removed, both it and the HMAC
of JSON.stringify(req.body) are hex-decoded into byte buffers as
Buffer.from(s, 'hex') does, and the buffers are compared with
timingSafeEqual, which throws on buffers of different length (surfacing
as a 500 through the catch). membershipFetch is the enrichment result
passed to the valid-handler. -/
def p2Webhook (hmac : String → String → String) (sig : Option String)
    (body : JsonVal) (membershipFetch : Option JsonVal) (now : Int)
    (s : P2State) : P2Out × P2State :=
  let payload := jsonStringify body
  let companyIdVal := jsOr (jget (jget body "data") "company_id") (jget body "company_id")
  if !(truthy companyIdVal) then (.badRequest, s)
  else
    let companyId := jsToText companyIdVal
    match s.groups.find? (fun g => g.whop_company_id == companyId) with
    | none => (.notFound, s)
    | some g =>
      let verdict : Option P2Out :=
        match g.webhook_secret, sig with
        | some sec, some sigRaw =>
          if sec ≠ "" && sigRaw ≠ "" then
            let sigHex := String.mk (removeFirst "sha256=".toList sigRaw.toList)
            let expected := hmac sec payload
            let sigBuffer := hexDecode sigHex.toList
            let expectedBuffer := hexDecode expected.toList
            if sigBuffer.length ≠ expectedBuffer.length then some .serverError
            else if sigBuffer ≠ expectedBuffer then some .unauthorized
            else none
          else none
        | _, _ => none
      match verdict with
      | some out => (out, s)
      | none =>
        let eventType := jget body "type"
        let data := jget body "data"
        if jsEqStr eventType "membership_went_valid" then
          (.ok, p2HandleMembershipValid data companyId membershipFetch now s)
        else if jsEqStr eventType "membership_went_invalid" then
          (.ok, p2HandleMembershipInvalid data companyId s)
        else if jsEqStr eventType "waitlist_submission" then
          (.ok, p2HandleWaitlistSubmission data companyId now s)
        else (.ok, s)

/-!
Generic facts about the sqlUpsert primitive, used to settle the
idempotence and uniqueness claims.
-/

theorem mapIf_any (p : α → Bool) (u : α → α) (h1 : ∀ a, p (u a) = p a) (l : List α) :
    (l.map (fun a => if p a then u a else a)).any p = l.any p := by
  induction l with
  | nil => rfl
  | cons a t ih =>
    simp only [List.map_cons, List.any_cons, ih]
    cases hpa : p a <;> simp [hpa, h1 a]

theorem countP_mapIf (p : α → Bool) (u : α → α) (h1 : ∀ a, p (u a) = p a) (l : List α) :
    (l.map (fun a => if p a then u a else a)).countP p = l.countP p := by
  induction l with
  | nil => rfl
  | cons a t ih =>
    simp only [List.map_cons, List.countP_cons, ih]
    cases hpa : p a <;> simp [hpa, h1 a]

theorem mapIf_id (p : α → Bool) (u : α → α) (l : List α) (h : l.any p = false) :
    l.map (fun a => if p a then u a else a) = l := by
  induction l with
  | nil => rfl
  | cons a t ih =>
    simp only [List.any_cons, Bool.or_eq_false_iff] at h
    simp [List.map_cons, h.1, ih h.2]

theorem countP_eq_zero_of_any_false (p : α → Bool) (l : List α) (h : l.any p = false) :
    l.countP p = 0 := by
  induction l with
  | nil => rfl
  | cons a t ih =>
    simp only [List.any_cons, Bool.or_eq_false_iff] at h
    simp [List.countP_cons, h.1, ih h.2]

theorem countP_pos_of_any_true (p : α → Bool) (l : List α) (h : l.any p = true) :
    0 < l.countP p := by
  induction l with
  | nil => simp at h
  | cons a t ih =>
    simp only [List.any_cons, Bool.or_eq_true] at h
    rcases h with h | h
    · simp [List.countP_cons, h]
    · have h2 := ih h
      cases hpa : p a
      · simpa [List.countP_cons, hpa] using h2
      · simp only [List.countP_cons, hpa, if_true]
        omega

/-- Applying the same upsert twice is the same as applying it once,
provided the update preserves the conflict key, is idempotent, and fixes
the fresh row (which itself matches the conflict key). -/
theorem sqlUpsert_idem (p : α → Bool) (u : α → α) (fresh : α)
    (h1 : ∀ a, p (u a) = p a) (h2 : ∀ a, u (u a) = u a)
    (h3 : p fresh = true) (h4 : u fresh = fresh) (l : List α) :
    sqlUpsert p u fresh (sqlUpsert p u fresh l) = sqlUpsert p u fresh l := by
  cases h : l.any p
  · have hfr : (l ++ [fresh]).any p = true := by simp [List.any_append, h3]
    simp only [sqlUpsert, h, Bool.false_eq_true, if_false, hfr, if_true]
    rw [List.map_append, mapIf_id p u l h]
    simp [h3, h4]
  · have hm : (l.map (fun a => if p a then u a else a)).any p = true := by
      rw [mapIf_any p u h1 l]; exact h
    simp only [sqlUpsert, h, if_true, hm]
    rw [List.map_map]
    apply List.map_congr_left
    intro a _
    cases hpa : p a with
    | true => simp [Function.comp, hpa, h1 a, h2 a]
    | false => simp [Function.comp, hpa]

/-- After an upsert there is exactly one row matching the conflict key,
provided there was at most one before. -/
theorem sqlUpsert_countP (p : α → Bool) (u : α → α) (fresh : α)
    (h1 : ∀ a, p (u a) = p a) (h3 : p fresh = true) (l : List α)
    (hle : l.countP p ≤ 1) :
    (sqlUpsert p u fresh l).countP p = 1 := by
  cases h : l.any p
  · simp [sqlUpsert, h, List.countP_append, countP_eq_zero_of_any_false p l h,
      List.countP_cons, h3]
  · simp only [sqlUpsert, h, if_true]
    rw [countP_mapIf p u h1 l]
    have := countP_pos_of_any_true p l h
    omega

/-- A row matching the conflict key is updated in place by the upsert. -/
theorem sqlUpsert_mem_upd (p : α → Bool) (u : α → α) (fresh : α) (l : List α)
    (a : α) (ha : a ∈ l) (hpa : p a = true) :
    u a ∈ sqlUpsert p u fresh l := by
  have hany : l.any p = true := List.any_eq_true.mpr ⟨a, ha, hpa⟩
  simp only [sqlUpsert, hany, if_true]
  exact List.mem_map.mpr ⟨a, ha, by simp [hpa]⟩

theorem jsCoalesce_self (a : JsonVal) : jsCoalesce a a = a := by
  cases a <;> rfl

theorem jsCoalesce_absorb (a b : JsonVal) : jsCoalesce a (jsCoalesce a b) = jsCoalesce a b := by
  cases a <;> rfl

theorem updRowValid_key (uid companyId : String) (data : JsonVal) (now : Int) (r : MemberRow) :
    keyMatch uid companyId (updRowValid data now r) = keyMatch uid companyId r := rfl

theorem updRowValid_idem (data : JsonVal) (now : Int) (r : MemberRow) :
    updRowValid data now (updRowValid data now r) = updRowValid data now r := by
  simp [updRowValid, jsCoalesce_absorb]

theorem newMemberRow_key (companyId : String) (data : JsonVal) (now : Int) :
    keyMatch (jsToText (extractUserIdV data)) companyId (newMemberRow companyId data now) = true := by
  simp [keyMatch, newMemberRow]

theorem updRowValid_fresh (companyId : String) (data : JsonVal) (now : Int) :
    updRowValid data now (newMemberRow companyId data now) = newMemberRow companyId data now := by
  simp [updRowValid, newMemberRow, jsCoalesce_self]

theorem ensureCompanies_idem (companyId : String) (now : Int) (cs : List CompanyRow) :
    ensureCompanies companyId now (ensureCompanies companyId now cs) =
      ensureCompanies companyId now cs := by
  apply sqlUpsert_idem
  · intro c; rfl
  · intro c; rfl
  · simp
  · rfl

/-!
Claim theorems. Each claim of CLAIMS.json gets exactly one theorem (plus
a witness when the theorem carries hypotheses, and a counterexample when
the claim as frozen fails on the code).
-/

/-- C1: applying the same "became valid" event payload twice to the
membership upsert engine (handleMembershipValid of the second server.js
variant) is idempotent and creates no duplicate row: the (user_id,
company_id) key stays unique, and the stored row obeys per-column
COALESCE(new, old) for the optional profile fields email, name and
username, while custom_fields and status are fully replaced by the new
delivery's values (and joined_at is untouched on conflict). -/
theorem upsert_redelivery_idempotent (s : WState) (companyId : String)
    (data : JsonVal) (now : Int)
    (huid : truthy (extractUserIdV data) = true)
    (hkey : s.members.countP (keyMatch (jsToText (extractUserIdV data)) companyId) ≤ 1) :
    handleMembershipValid companyId data now (handleMembershipValid companyId data now s) =
      handleMembershipValid companyId data now s ∧
    (handleMembershipValid companyId data now s).members.countP
      (keyMatch (jsToText (extractUserIdV data)) companyId) = 1 ∧
    ∀ r ∈ s.members, keyMatch (jsToText (extractUserIdV data)) companyId r = true →
      ∃ r2 ∈ (handleMembershipValid companyId data now s).members,
        r2.email = jsCoalesce (extractEmailV data) r.email ∧
        r2.name = jsCoalesce (extractNameV data) r.name ∧
        r2.username = jsCoalesce (extractUsernameV data) r.username ∧
        r2.custom_fields = extractCustomFieldsSrv data ∧
        r2.status = "active" ∧
        r2.joined_at = r.joined_at := by
  refine ⟨?_, ?_, ?_⟩
  · simp only [handleMembershipValid, huid, Bool.not_true, Bool.false_eq_true, if_false,
      ensureCompanyExists]
    refine congr_arg₂ WState.mk ?_ ?_
    · exact ensureCompanies_idem companyId now s.companies
    · exact sqlUpsert_idem _ _ _
        (fun r => updRowValid_key _ _ data now r)
        (fun r => updRowValid_idem data now r)
        (newMemberRow_key companyId data now)
        (updRowValid_fresh companyId data now)
        s.members
  · simp only [handleMembershipValid, huid, Bool.not_true, Bool.false_eq_true, if_false,
      ensureCompanyExists]
    exact sqlUpsert_countP _ _ _
      (fun r => updRowValid_key _ _ data now r)
      (newMemberRow_key companyId data now)
      s.members hkey
  · intro r hr hkr
    simp only [handleMembershipValid, huid, Bool.not_true, Bool.false_eq_true, if_false,
      ensureCompanyExists]
    exact ⟨updRowValid data now r,
      sqlUpsert_mem_upd _ _ _ s.members r hr hkr,
      rfl, rfl, rfl, rfl, rfl, rfl⟩

def c1Data : JsonVal := .obj [("user_id", .str "u1"), ("id", .str "m1")]

def c1Row : MemberRow :=
  { user_id := "u1", membership_id := .null, company_id := "c1",
    email := .str "old@example.com", name := .str "Old Name", username := .null,
    profile_picture_url := .null, custom_fields := .obj [("q1", .str "a")],
    joined_at := some 5, status := "active", updated_at := 5 }

theorem upsert_redelivery_idempotent_witness :
    truthy (extractUserIdV c1Data) = true ∧
    (WState.mk [] [c1Row]).members.countP
      (keyMatch (jsToText (extractUserIdV c1Data)) "c1") ≤ 1 ∧
    (handleMembershipValid "c1" c1Data 77 (handleMembershipValid "c1" c1Data 77 ⟨[], [c1Row]⟩) =
      handleMembershipValid "c1" c1Data 77 ⟨[], [c1Row]⟩ ∧
    (handleMembershipValid "c1" c1Data 77 ⟨[], [c1Row]⟩).members.countP
      (keyMatch (jsToText (extractUserIdV c1Data)) "c1") = 1 ∧
    ∀ r ∈ (WState.mk [] [c1Row]).members,
      keyMatch (jsToText (extractUserIdV c1Data)) "c1" r = true →
      ∃ r2 ∈ (handleMembershipValid "c1" c1Data 77 ⟨[], [c1Row]⟩).members,
        r2.email = jsCoalesce (extractEmailV c1Data) r.email ∧
        r2.name = jsCoalesce (extractNameV c1Data) r.name ∧
        r2.username = jsCoalesce (extractUsernameV c1Data) r.username ∧
        r2.custom_fields = extractCustomFieldsSrv c1Data ∧
        r2.status = "active" ∧
        r2.joined_at = r.joined_at) :=
  ⟨rfl, by decide, upsert_redelivery_idempotent ⟨[], [c1Row]⟩ "c1" c1Data 77 rfl (by decide)⟩

theorem firstNonEmpty_append (xs ys : List (Option String)) (v : String)
    (h : firstNonEmpty xs = some v) : firstNonEmpty (xs ++ ys) = some v := by
  induction xs with
  | nil => simp [firstNonEmpty] at h
  | cons a t ih =>
    cases a with
    | none =>
      rw [List.cons_append]
      simp only [firstNonEmpty] at h ⊢
      exact ih h
    | some s =>
      rw [List.cons_append]
      simp only [firstNonEmpty] at h ⊢
      by_cases hs : jsTrim s ≠ ""
      · rwa [if_pos hs] at h ⊢
      · rw [if_neg hs] at h ⊢
        exact ih h

/-- C2 (amended): in the second server.js variant the claim holds - the
explicit tenant headers are the highest-priority sources of
extractCompanyId, so whenever any of them is non-empty after trimming,
the resolver answers that (trimmed) header value, never a referer-derived
or query/body-derived one. The part_001 variant violates the claim as
frozen: there the query parameter and the referer patterns are consulted
before the headers (see the counterexample). -/
theorem resolver_priority_amended (r : Request) (v : String)
    (h : headerCandidate r = some v) : extractCompanyId r = some v := by
  have hsrc : srvSources r =
      [getHeader r "x-page-id", getHeader r "x-whop-company-id",
        getHeader r "x-company-id", getHeader r "x-business-id"] ++
      [getQuery r "company", getQuery r "company_id", getQuery r "business_id",
        getQuery r "page_id", getQuery r "biz",
        asStr (jget r.body "page_id"), asStr (jget r.body "company_id"),
        asStr (jget r.body "business_id"),
        asStr (jget (jget r.body "data") "page_id"),
        asStr (jget (jget r.body "data") "company_id"),
        asStr (jget (jget r.body "data") "business_id"),
        asStr (jget (jget (jget r.body "data") "product") "company_id"),
        extractCompanyFromWhopApps (getReferer r),
        extractCompanyFromReferer (getReferer r)] := rfl
  rw [extractCompanyId, hsrc]
  exact firstNonEmpty_append _ _ v h

def c2Request : Request :=
  { headers := [("x-whop-company-id", "biz_HEADER"), ("referer", "https://whop.com/acme/")],
    query := [], body := .obj [] }

/-- C2 counterexample: the part_001 extractCompanyId, on a request
carrying both the explicit x-whop-company-id header biz_HEADER and a
referer from which the different tenant acme is extractable, answers the
referer-derived acme and not the header value, refuting the claim that
the resolver returns the header value for every such request. -/
theorem resolver_priority_counterexample :
    extractCompanyId_p1 c2Request = some "acme" ∧
    getHeader c2Request "x-whop-company-id" = some "biz_HEADER" ∧
    some "acme" ≠ (some "biz_HEADER" : Option String) :=
  ⟨rfl, rfl, by decide⟩

def c2WitnessRequest : Request :=
  { headers := [("x-whop-company-id", "biz_h"), ("referer", "https://acme.whop.com/x")],
    query := [], body := .obj [] }

theorem resolver_priority_witness :
    headerCandidate c2WitnessRequest = some "biz_h" ∧
    extractCompanyFromReferer (getReferer c2WitnessRequest) = some "acme" ∧
    extractCompanyId c2WitnessRequest = some "biz_h" :=
  ⟨rfl, rfl, resolver_priority_amended c2WitnessRequest "biz_h" rfl⟩

/-- C3 counterexample, evaluated on the claim's own inputs with now =
1760000000000 (an instant in 2025): the raw value 1700000000 (epoch
seconds) normalizes to 1700000000000 ms, but the raw value 1700000000000
(epoch milliseconds) is also treated as seconds and multiplied by 1000,
giving 1700000000000000 ms (circa year 55838) - not the same instant
within 1 second; the ISO string "2023-11-14T00:00:00Z" parses to
1699920000000 ms, 22h13m20s away from the seconds case - again not
within 1 second; and the string "not-a-date" produces an Invalid Date
(none), not a value near now. -/
theorem timestamp_normalization_counterexample :
    parseJoinedAt (.num 1700000000) 1760000000000 = some 1700000000000 ∧
    parseJoinedAt (.num 1700000000000) 1760000000000 = some 1700000000000000 ∧
    ¬ ((1700000000000000 : Int) - 1700000000000 ≤ 1000) ∧
    parseJoinedAt (.str "2023-11-14T00:00:00Z") 1760000000000 = some 1699920000000 ∧
    ¬ ((1700000000000 : Int) - 1699920000000 ≤ 1000) ∧
    parseJoinedAt (.str "not-a-date") 1760000000000 = none :=
  ⟨rfl, rfl, by decide, rfl, by decide, rfl⟩

/-- C3 (amended): the single threshold check means every numeric
created value whose integer parse exceeds 946684800 - epoch milliseconds
included - is treated as epoch seconds and multiplied by 1000, so
1700000000 and 1700000000000 normalize 1000x apart instead of to the
same instant; the ISO string parses through the Date constructor to
2023-11-14T00:00:00Z, which is not the instant 1700000000 seconds
denote; the raw value 0 is falsy, so it (like an absent created value)
does default to the current time rather than the 1970 epoch; and
"not-a-date" yields an Invalid Date rather than the current time. -/
theorem timestamp_normalization_amended :
    (∀ (n now : Int), n > 946684800 →
      parseJoinedAt (.num n) now = jsDateFromMs (n * 1000)) ∧
    (∀ now : Int, parseJoinedAt (.num 0) now = some now) ∧
    (∀ now : Int, parseJoinedAt .null now = some now) ∧
    parseJoinedAt (.num 1700000000) 0 = some 1700000000000 ∧
    parseJoinedAt (.num 1700000000000) 0 = some 1700000000000000 ∧
    parseJoinedAt (.str "2023-11-14T00:00:00Z") 0 = some 1699920000000 ∧
    parseJoinedAt (.str "not-a-date") 0 = none := by
  refine ⟨?_, ?_, ?_, rfl, rfl, rfl, rfl⟩
  · intro n now hn
    have ht : truthy (JsonVal.num n) = true := by
      simp only [truthy, decide_eq_true_eq]
      omega
    simp only [parseJoinedAt, ht, if_true, parseIntJs]
    rw [if_pos hn]
  · intro now
    rfl
  · intro now
    rfl

theorem timestamp_normalization_witness :
    ((1700000000000 : Int) > 946684800) ∧
    parseJoinedAt (.num 1700000000000) 5 = jsDateFromMs (1700000000000 * 1000) :=
  ⟨by decide, timestamp_normalization_amended.1 1700000000000 5 (by decide)⟩

def c4Data : JsonVal :=
  .obj [("custom_fields", .obj [("q1", .str "a")]), ("metadata", .obj [("q2", .str "b")])]

/-- C4 counterexample: on a payload with custom_fields = {q1: a} and
metadata = {q2: b}, both extraction routines (server.js lines 1365-1370
and part_000 lines 193-210) store only {q1: a}: the metadata candidate is
never merged in, the stored mapping has no q2 key, while the mapping the
claim demands binds q2 to b. -/
theorem custom_fields_merge_counterexample :
    extractCustomFieldsSrv c4Data = .obj [("q1", .str "a")] ∧
    extractCustomFieldsP0 c4Data = .obj [("q1", .str "a")] ∧
    jget (extractCustomFieldsSrv c4Data) "q2" = .null ∧
    jget (.obj [("q1", .str "a"), ("q2", .str "b")]) "q2" = .str "b" :=
  ⟨rfl, rfl, rfl, rfl⟩

/-- C4 (amended): the candidate payload locations are consulted in a
fixed priority order and only the FIRST populated one is kept - there is
no cross-location merge (except that part_000 additionally spreads
form_responses and checkout_custom_fields on top when present). In
particular, whenever custom_fields is populated, a simultaneously
populated metadata object is ignored by both variants, so the example
payload stores {"q1": "a"}, not {"q1": "a", "q2": "b"}. -/
theorem truthy_null : truthy JsonVal.null = false := rfl

theorem custom_fields_first_match_amended (cf md : JsonVal)
    (h : truthy cf = true) :
    extractCustomFieldsSrv (.obj [("custom_fields", cf), ("metadata", md)]) = cf ∧
    extractCustomFieldsP0 (.obj [("custom_fields", cf), ("metadata", md)]) = cf := by
  constructor
  · simp [extractCustomFieldsSrv, jget, jsOr, h, truthy_null]
  · simp [extractCustomFieldsP0, jget, h, truthy_null]

theorem custom_fields_first_match_witness :
    truthy (JsonVal.obj [("q1", .str "a")]) = true ∧
    (extractCustomFieldsSrv (.obj [("custom_fields", .obj [("q1", .str "a")]),
        ("metadata", .obj [("q2", .str "b")])]) = .obj [("q1", .str "a")] ∧
      extractCustomFieldsP0 (.obj [("custom_fields", .obj [("q1", .str "a")]),
        ("metadata", .obj [("q2", .str "b")])]) = .obj [("q1", .str "a")]) :=
  ⟨rfl, custom_fields_first_match_amended (.obj [("q1", .str "a")]) (.obj [("q2", .str "b")]) rfl⟩

/-- C5: processing a "became invalid" event (handleMembershipInvalid of
the second server.js variant) over a member in state active flips that
member's status to inactive and refreshes updated_at, while leaving
every other stored column - user_id, membership_id, email, name,
username, profile picture, custom_fields, joined_at - unchanged, and
neither adds nor removes rows. -/
theorem invalid_event_frame (s : WState) (companyId : String) (data : JsonVal) (now : Int)
    (huid : truthy (extractUserIdV data) = true)
    (r : MemberRow) (hr : r ∈ s.members)
    (hkr : keyMatch (jsToText (extractUserIdV data)) companyId r = true)
    (_hact : r.status = "active") :
    (handleMembershipInvalid companyId data now s).members.length = s.members.length ∧
    ∃ r2 ∈ (handleMembershipInvalid companyId data now s).members,
      r2.status = "inactive" ∧ r2.updated_at = now ∧
      r2.user_id = r.user_id ∧ r2.membership_id = r.membership_id ∧
      r2.email = r.email ∧ r2.name = r.name ∧ r2.username = r.username ∧
      r2.profile_picture_url = r.profile_picture_url ∧
      r2.custom_fields = r.custom_fields ∧ r2.joined_at = r.joined_at := by
  constructor
  · simp only [handleMembershipInvalid, huid, Bool.not_true, Bool.false_eq_true, if_false]
    simp [List.length_map]
  · simp only [handleMembershipInvalid, huid, Bool.not_true, Bool.false_eq_true, if_false]
    exact ⟨{ r with status := "inactive", updated_at := now },
      List.mem_map.mpr ⟨r, hr, by simp [hkr]⟩,
      rfl, rfl, rfl, rfl, rfl, rfl, rfl, rfl, rfl, rfl⟩

def c5Data : JsonVal := .obj [("user_id", .str "u1")]

def c5Row : MemberRow :=
  { user_id := "u1", membership_id := .str "m1", company_id := "c1",
    email := .str "a@example.com", name := .str "Name", username := .str "nick",
    profile_picture_url := .null, custom_fields := .obj [("q", .str "v")],
    joined_at := some 3, status := "active", updated_at := 3 }

theorem invalid_event_frame_witness :
    truthy (extractUserIdV c5Data) = true ∧
    c5Row ∈ (WState.mk [] [c5Row]).members ∧
    keyMatch (jsToText (extractUserIdV c5Data)) "c1" c5Row = true ∧
    c5Row.status = "active" ∧
    ((handleMembershipInvalid "c1" c5Data 9 ⟨[], [c5Row]⟩).members.length =
        (WState.mk [] [c5Row]).members.length ∧
      ∃ r2 ∈ (handleMembershipInvalid "c1" c5Data 9 ⟨[], [c5Row]⟩).members,
        r2.status = "inactive" ∧ r2.updated_at = 9 ∧
        r2.user_id = c5Row.user_id ∧ r2.membership_id = c5Row.membership_id ∧
        r2.email = c5Row.email ∧ r2.name = c5Row.name ∧ r2.username = c5Row.username ∧
        r2.profile_picture_url = c5Row.profile_picture_url ∧
        r2.custom_fields = c5Row.custom_fields ∧ r2.joined_at = c5Row.joined_at) :=
  ⟨rfl, by simp, rfl, rfl,
    invalid_event_frame ⟨[], [c5Row]⟩ "c1" c5Data 9 rfl c5Row (by simp) rfl rfl⟩

def c6Request : Request :=
  { headers := [], query := [],
    body := .obj [("action", .str "some.new_event"),
      ("data", .obj [("status", .str "completed"), ("valid", .bool true),
        ("user_id", .str "u1"), ("page_id", .str "biz_1")])] }

/-- C6 counterexample: a webhook whose event kind some.new_event is none
of the recognized synonyms is NOT a no-op - because its data carries
status = "completed" and valid === true, the default arm of the
dispatcher processes it as a membership validation, creating a member
row in a previously empty store (the response is still a success). -/
theorem unrecognized_event_counterexample :
    isValidEvt (wEventType c6Request) = false ∧
    isInvalidEvt (wEventType c6Request) = false ∧
    isUpdateEvt (wEventType c6Request) = false ∧
    (webhookWhop c6Request 1000 ⟨[], []⟩).1 = .ok (.str "some.new_event") "biz_1" ∧
    (webhookWhop c6Request 1000 ⟨[], []⟩).2.members.length = 1 :=
  ⟨rfl, rfl, rfl, rfl, rfl⟩

/-- C6 (amended): a webhook that passes payload validation (event kind,
data and tenant id present) and whose event kind is not one of the
recognized synonyms is answered with a success response and leaves the
member table untouched - UNLESS the payload carries status = "completed"
and valid === true, in which case the default arm treats it as a
membership-validation event (the tenant row is created or refreshed in
either case, before the event switch). -/
theorem unrecognized_event_amended (r : Request) (now : Int) (s : WState)
    (he : truthy (wEventType r) = true)
    (hd : truthy (wData r) = true)
    (hc : truthy (wCompanyVal r) = true)
    (hv : isValidEvt (wEventType r) = false)
    (hi : isInvalidEvt (wEventType r) = false)
    (hu : isUpdateEvt (wEventType r) = false)
    (hf : (jsEqStr (jget (wData r) "status") "completed" &&
        jsEqTrue (jget (wData r) "valid")) = false) :
    (webhookWhop r now s).1 = .ok (wEventType r) (jsToText (wCompanyVal r)) ∧
    (webhookWhop r now s).2.members = s.members := by
  constructor
  · simp [webhookWhop, he, hd, hc, hv, hi, hu, hf]
  · simp [webhookWhop, he, hd, hc, hv, hi, hu, hf, ensureCompanyExists]

def c6WitnessRequest : Request :=
  { headers := [], query := [],
    body := .obj [("action", .str "foo.bar"),
      ("data", .obj [("user_id", .str "u1"), ("page_id", .str "biz_9")])] }

theorem unrecognized_event_witness :
    truthy (wEventType c6WitnessRequest) = true ∧
    truthy (wData c6WitnessRequest) = true ∧
    truthy (wCompanyVal c6WitnessRequest) = true ∧
    isValidEvt (wEventType c6WitnessRequest) = false ∧
    isInvalidEvt (wEventType c6WitnessRequest) = false ∧
    isUpdateEvt (wEventType c6WitnessRequest) = false ∧
    (jsEqStr (jget (wData c6WitnessRequest) "status") "completed" &&
      jsEqTrue (jget (wData c6WitnessRequest) "valid")) = false ∧
    ((webhookWhop c6WitnessRequest 44 ⟨[], []⟩).1 =
        .ok (wEventType c6WitnessRequest) (jsToText (wCompanyVal c6WitnessRequest)) ∧
      (webhookWhop c6WitnessRequest 44 ⟨[], []⟩).2.members = ([] : List MemberRow)) :=
  ⟨rfl, rfl, rfl, rfl, rfl, rfl, rfl,
    unrecognized_event_amended c6WitnessRequest 44 ⟨[], []⟩ rfl rfl rfl rfl rfl rfl rfl⟩

/-- C7: a webhook whose event kind and data validate but for which no
source - headers, query string, body fields (top-level, data, nested
product) or referer, i.e. extractCompanyId, plus the dispatcher's
fallback chain over the data object - yields a non-empty tenant id is
rejected with the 400 client error, and the state (companies AND
members) is returned exactly as it was: nothing is written and no
default tenant is guessed. -/
theorem unresolved_tenant_reject (r : Request) (now : Int) (s : WState)
    (he : truthy (wEventType r) = true)
    (hd : truthy (wData r) = true)
    (hc : truthy (wCompanyVal r) = false) :
    webhookWhop r now s = (.badRequest "No company ID found in webhook payload", s) := by
  simp [webhookWhop, he, hd, hc]

def c7Request : Request :=
  { headers := [], query := [],
    body := .obj [("action", .str "membership_went_valid"),
      ("data", .obj [("user_id", .str "u1")])] }

theorem unresolved_tenant_reject_witness :
    truthy (wEventType c7Request) = true ∧
    truthy (wData c7Request) = true ∧
    truthy (wCompanyVal c7Request) = false ∧
    extractCompanyId c7Request = none ∧
    webhookWhop c7Request 12 ⟨[], []⟩ =
      (.badRequest "No company ID found in webhook payload", (⟨[], []⟩ : WState)) :=
  ⟨rfl, rfl, rfl, rfl, unresolved_tenant_reject c7Request 12 ⟨[], []⟩ rfl rfl rfl⟩

/-- C10: an "updated" event for a member absent from the store does not
fail and is not a no-op - when no (user_id, company_id) row matches, the
targeted UPDATE of handleMembershipUpdate falls through to
handleMembershipValid, and the resulting state contains a fresh row for
that member with status active. -/
theorem update_absent_fallback (s : WState) (companyId : String) (data : JsonVal) (now : Int)
    (huid : truthy (extractUserIdV data) = true)
    (habs : s.members.any (keyMatch (jsToText (extractUserIdV data)) companyId) = false) :
    handleMembershipUpdate companyId data now s = handleMembershipValid companyId data now s ∧
    ∃ r ∈ (handleMembershipUpdate companyId data now s).members,
      keyMatch (jsToText (extractUserIdV data)) companyId r = true ∧
      r.status = "active" := by
  have h1 : handleMembershipUpdate companyId data now s =
      handleMembershipValid companyId data now s := by
    simp only [handleMembershipUpdate, huid, Bool.not_true, Bool.false_eq_true, if_false, habs]
  refine ⟨h1, ?_⟩
  rw [h1]
  simp only [handleMembershipValid, huid, Bool.not_true, Bool.false_eq_true, if_false,
    ensureCompanyExists, sqlUpsert, habs]
  exact ⟨newMemberRow companyId data now, by simp,
    newMemberRow_key companyId data now, rfl⟩

def c10Data : JsonVal := .obj [("user_id", .str "u2"), ("email", .str "b@example.com")]

theorem update_absent_fallback_witness :
    truthy (extractUserIdV c10Data) = true ∧
    (WState.mk [] []).members.any (keyMatch (jsToText (extractUserIdV c10Data)) "c9") = false ∧
    (handleMembershipUpdate "c9" c10Data 21 ⟨[], []⟩ =
        handleMembershipValid "c9" c10Data 21 ⟨[], []⟩ ∧
      ∃ r ∈ (handleMembershipUpdate "c9" c10Data 21 ⟨[], []⟩).members,
        keyMatch (jsToText (extractUserIdV c10Data)) "c9" r = true ∧
        r.status = "active") :=
  ⟨rfl, rfl, update_absent_fallback ⟨[], []⟩ "c9" c10Data 21 rfl rfl⟩

/-- The upsert always leaves some row satisfying P, provided the fresh
row satisfies it and updating any conflicting row produces one. -/
theorem sqlUpsert_exists (p : α → Bool) (u : α → α) (fresh : α) (l : List α)
    (P : α → Prop) (hf : P fresh) (hu : ∀ a ∈ l, p a = true → P (u a)) :
    ∃ b ∈ sqlUpsert p u fresh l, P b := by
  cases h : l.any p
  · refine ⟨fresh, ?_, hf⟩
    simp [sqlUpsert, h]
  · obtain ⟨a, ha, hpa⟩ := List.any_eq_true.mp h
    exact ⟨u a, sqlUpsert_mem_upd p u fresh l a ha hpa, hu a ha hpa⟩

/-- C8 counterexample: in the first server.js variant
(handleAppMembershipValid), a "became valid" event whose membership
detail fetch fails (membershipData = none) performs NO member write at
all - the state is returned unchanged - while the identical event with a
successful fetch stores one member. The claim that the engine always
degrades to a webhook-only write is therefore false for this handler
(the company id only exists in the fetch response). -/
theorem enrichment_failure_counterexample :
    handleAppMembershipValid (.obj [("user_id", .str "u1"), ("id", .str "mem1")])
      true none none 1000 ⟨[], []⟩ = (⟨[], []⟩ : AppState) ∧
    (handleAppMembershipValid (.obj [("user_id", .str "u1"), ("id", .str "mem1")])
      true (some (.obj [("company_buyer_id", .str "biz_2")])) none 1000
      ⟨[], []⟩).members.length = 1 :=
  ⟨rfl, rfl⟩

/-- C8 (amended): the part_002 handler does degrade gracefully - when
the membership-detail fetch fails (membershipData = none) the primary
member upsert still happens, storing the data extracted from the webhook
alone (user id, user email, the raw payload as membership_data, status
active). In the first server.js variant the fetch is load-bearing (it is
the only source of the company id) and its failure aborts the write, as
the counterexample shows. -/
theorem enrichment_degrade_amended (data : JsonVal) (companyId : String) (now : Int)
    (s : P2State)
    (huid : isNullJ (jsOr (jget data "user_id") (jget (jget data "user") "id")) = false) :
    ∃ m ∈ (p2HandleMembershipValid data companyId none now s).members,
      m.whop_company_id = companyId ∧
      m.whop_user_id = jsToText (jsOr (jget data "user_id") (jget (jget data "user") "id")) ∧
      m.status = "active" ∧
      m.email = jget (jget data "user") "email" ∧
      m.membership_data = data := by
  simp only [p2HandleMembershipValid, huid, Bool.false_eq_true, if_false]
  cases hlr : selectLatestWaitlist s.waitlist companyId
      (jsOr (jget data "user_id") (jget (jget data "user") "id"))
      (jget (jget data "user") "email") with
  | none =>
    simp only
    exact sqlUpsert_exists _ _ _ s.members _ ⟨rfl, rfl, rfl, rfl, rfl⟩
      (fun a _ hpa => by
        simp only [Bool.and_eq_true, beq_iff_eq] at hpa
        exact ⟨hpa.1, hpa.2, rfl, rfl, rfl⟩)
  | some w =>
    simp only
    exact sqlUpsert_exists _ _ _ s.members _ ⟨rfl, rfl, rfl, rfl, rfl⟩
      (fun a _ hpa => by
        simp only [Bool.and_eq_true, beq_iff_eq] at hpa
        exact ⟨hpa.1, hpa.2, rfl, rfl, rfl⟩)

def c8Data : JsonVal :=
  .obj [("user_id", .str "u1"), ("id", .str "mem9"),
    ("user", .obj [("email", .str "a@example.com")])]

theorem enrichment_degrade_witness :
    isNullJ (jsOr (jget c8Data "user_id") (jget (jget c8Data "user") "id")) = false ∧
    ∃ m ∈ (p2HandleMembershipValid c8Data "biz_3" none 7 ⟨[], [], []⟩).members,
      m.whop_company_id = "biz_3" ∧
      m.whop_user_id = jsToText (jsOr (jget c8Data "user_id") (jget (jget c8Data "user") "id")) ∧
      m.status = "active" ∧
      m.email = jget (jget c8Data "user") "email" ∧
      m.membership_data = c8Data :=
  ⟨rfl, enrichment_degrade_amended c8Data "biz_3" 7 ⟨[], [], []⟩ rfl⟩

/-- C9 (amended): in the part_000 webhook route the claim holds as
frozen - with verification enabled, a missing x-whop-signature header, a
malformed header (one with no t= part or no v1= part), or a signature
whose hex-decoded bytes differ from the bytes of the expected HMAC
digest is answered 401 with the store unchanged and the body never
parsed (the returned flag is false); a signature whose decoded bytes
match the digest - including one written in uppercase hex, since
Buffer.from hex decoding ignores case - passes verification and the
route proceeds to parse the body. In the part_002 route, however, the
company id is read from the already-parsed body BEFORE the check, and a
missing signature header skips verification entirely (see the
counterexample), so only the part_000 ordering matches the claim. -/
theorem signature_check_amended :
    (∀ (sec : String) (hmac : String → String → String)
        (parse : String → Option JsonVal) (r : RawRequest) (now : Int) (rows : List P0Row),
      r.sigHeader = none →
        p0Webhook (some sec) hmac parse r now rows =
          (.unauthorized "Missing signature or payload", rows, false)) ∧
    (∀ (sec : String) (hmac : String → String → String)
        (parse : String → Option JsonVal) (r : RawRequest) (now : Int) (rows : List P0Row)
        (sh : String),
      r.sigHeader = some sh →
      (findPart (charSplit ',' sh.toList) "t=" = none ∨
        findPart (charSplit ',' sh.toList) "v1=" = none) →
        p0Webhook (some sec) hmac parse r now rows =
          (.unauthorized "Invalid signature header format", rows, false)) ∧
    (∀ (sec : String) (hmac : String → String → String)
        (parse : String → Option JsonVal) (r : RawRequest) (now : Int) (rows : List P0Row)
        (sh : String) (tPart vPart : List Char),
      r.sigHeader = some sh →
      findPart (charSplit ',' sh.toList) "t=" = some tPart →
      findPart (charSplit ',' sh.toList) "v1=" = some vPart →
      hexDecode (vPart.drop 3) ≠
        hexDecode (hmac sec (String.mk (tPart.drop 2) ++ "." ++ r.rawBody)).toList →
        p0Webhook (some sec) hmac parse r now rows =
          (.unauthorized "Invalid signature", rows, false)) ∧
    (∀ (sec : String) (hmac : String → String → String)
        (parse : String → Option JsonVal) (r : RawRequest) (now : Int) (rows : List P0Row)
        (sh : String) (tPart vPart : List Char),
      r.sigHeader = some sh →
      findPart (charSplit ',' sh.toList) "t=" = some tPart →
      findPart (charSplit ',' sh.toList) "v1=" = some vPart →
      hexDecode (vPart.drop 3) =
        hexDecode (hmac sec (String.mk (tPart.drop 2) ++ "." ++ r.rawBody)).toList →
        p0Webhook (some sec) hmac parse r now rows = p0Process parse r now rows) := by
  refine ⟨?_, ?_, ?_, ?_⟩
  · intro sec hmac parse r now rows hnone
    simp [p0Webhook, hnone]
  · intro sec hmac parse r now rows sh hsh hmal
    simp only [p0Webhook, hsh]
    simp only [String.toList] at hmal ⊢
    rcases hmal with h | h
    · simp [h]
    · cases ht2 : findPart (charSplit ',' sh.data) "t=" <;> simp [ht2, h]
  · intro sec hmac parse r now rows sh tPart vPart hsh ht hv hne
    simp only [p0Webhook, hsh]
    simp only [String.toList] at ht hv hne ⊢
    simp only [ht, hv]
    simp [hne]
  · intro sec hmac parse r now rows sh tPart vPart hsh ht hv heq
    simp only [p0Webhook, hsh]
    simp only [String.toList] at ht hv heq ⊢
    simp only [ht, hv]
    simp [heq]

def c9Body : JsonVal :=
  .obj [("type", .str "membership_went_valid"), ("company_id", .str "biz_1"),
    ("data", .obj [("user_id", .str "u1"), ("id", .str "m1")])]

def c9State : P2State := ⟨[⟨"biz_1", some "topsecret"⟩], [], []⟩

/-- C9 counterexample: the part_002 route, for the company biz_1 whose
webhook secret IS configured, processes a webhook with NO signature
header at all: verification is skipped (the code only verifies when
webhookSecret AND signature are both present), the response is a
success, and a member row is written - refuting the claim that every
missing-signature webhook is rejected with 401 before any extraction. -/
theorem signature_missing_counterexample :
    (p2Webhook (fun _ _ => "aa") none c9Body none 1000 c9State).1 = P2Out.ok ∧
    (p2Webhook (fun _ _ => "aa") none c9Body none 1000 c9State).2.members.length = 1 :=
  ⟨rfl, rfl⟩

theorem signature_check_witness :
    (RawRequest.mk none "rawbody").sigHeader = none ∧
    p0Webhook (some "sec") (fun a b => a ++ b) (fun _ => none) ⟨none, "rawbody"⟩ 3 [] =
      (.unauthorized "Missing signature or payload", [], false) ∧
    findPart (charSplit ',' ("nonsense" : String).toList) "t=" = none ∧
    p0Webhook (some "sec") (fun a b => a ++ b) (fun _ => none) ⟨some "nonsense", "rawbody"⟩ 3 [] =
      (.unauthorized "Invalid signature header format", [], false) ∧
    hexDecode (("v1=00".toList).drop 3) ≠
      hexDecode ((fun (_ : String) (_ : String) => "bb") "sec"
        (String.mk (("t=1".toList).drop 2) ++ "." ++ "rawbody")).toList ∧
    p0Webhook (some "sec") (fun _ _ => "bb") (fun _ => none) ⟨some "t=1,v1=00", "rawbody"⟩ 3 [] =
      (.unauthorized "Invalid signature", [], false) ∧
    hexDecode (("v1=AB".toList).drop 3) =
      hexDecode ((fun (_ : String) (_ : String) => "ab") "sec"
        (String.mk (("t=1".toList).drop 2) ++ "." ++ "rawbody")).toList ∧
    p0Webhook (some "sec") (fun _ _ => "ab") (fun _ => none) ⟨some "t=1,v1=AB", "rawbody"⟩ 3 [] =
      p0Process (fun _ => none) ⟨some "t=1,v1=AB", "rawbody"⟩ 3 [] :=
  ⟨rfl,
    signature_check_amended.1 "sec" (fun a b => a ++ b) (fun _ => none) ⟨none, "rawbody"⟩ 3 [] rfl,
    rfl,
    signature_check_amended.2.1 "sec" (fun a b => a ++ b) (fun _ => none)
      ⟨some "nonsense", "rawbody"⟩ 3 [] "nonsense" rfl (Or.inl rfl),
    by decide,
    signature_check_amended.2.2.1 "sec" (fun _ _ => "bb") (fun _ => none)
      ⟨some "t=1,v1=00", "rawbody"⟩ 3 [] "t=1,v1=00" "t=1".toList "v1=00".toList
      rfl rfl rfl (by decide),
    by decide,
    signature_check_amended.2.2.2 "sec" (fun _ _ => "ab") (fun _ => none)
      ⟨some "t=1,v1=AB", "rawbody"⟩ 3 [] "t=1,v1=AB" "t=1".toList "v1=AB".toList
      rfl rfl rfl (by decide)⟩
